import Mathlib

/-!
Verification of the HMAC_RNG design (src/rng/hmac_rng/hmac_rng.cpp) via a
shallow embedding.  Machine integers (u32bit) are modelled as Nat reduced
mod 2^32 where the C++ arithmetic can wrap.  The two MAC primitives are
modelled at their interface boundary: a pure mac function from (key,
accumulated message) to a tag, together with a fixed output length.
Entropy sources are modelled as streams: the n-th fast (resp. slow) poll
of a source returns a fixed byte list, truncated to the 128-byte io_buffer
capacity; since the C++ code feeds exactly the `got` freshly written bytes
of io_buffer into the extractor, the reused scratch buffer itself needs no
explicit model.
-/

namespace Botan

/-- The u32bit modulus. -/
def u32Mod : Nat := 4294967296

/-- Interface model of a MessageAuthenticationCode primitive: a fixed
output length and the underlying MAC as a pure function of the key and
the accumulated input bytes. -/
structure MacPrim where
  outLen : Nat
  mac : List Nat → List Nat → List Nat

/-- Well-formedness of a MAC primitive: positive output length, and
final() returns exactly OUTPUT_LENGTH bytes. -/
def MacPrim.WF (p : MacPrim) : Prop :=
  0 < p.outLen ∧ ∀ k m, (p.mac k m).length = p.outLen

/-- Run-time state of one MAC instance: its current key and the input
accumulated by update() since the last final(). -/
structure MacState where
  prim : MacPrim
  key : List Nat
  buf : List Nat

/-- update(data, len): accumulate input. -/
def MacState.update (m : MacState) (data : List Nat) : MacState :=
  { m with buf := m.buf ++ data }

/-- final(): produce the tag over the accumulated input and reset the
accumulation. -/
def MacState.final (m : MacState) : List Nat × MacState :=
  (m.prim.mac m.key m.buf, { m with buf := [] })

/-- set_key(key, len): install a new key (resetting accumulated input,
as a keyed-MAC key schedule restarts the computation). -/
def MacState.set_key (m : MacState) (k : List Nat) : MacState :=
  { m with key := k, buf := [] }

/-- clear(): wipe key and internal state. -/
def MacState.clearMac (m : MacState) : MacState :=
  { m with key := [], buf := [] }

/-- An entropy source, modelled at the interface boundary as the stream
of its poll results: fast n (resp. slow n) is what the n-th fast_poll
(resp. slow_poll) call writes into the io_buffer. -/
structure EntropySource where
  fast : Nat → List Nat
  slow : Nat → List Nat

/-- A registered source together with how many fast/slow polls it has
answered so far. -/
structure SourceState where
  src : EntropySource
  fastCalls : Nat
  slowCalls : Nat

/-- io_buffer capacity (the constructor builds io_buffer(128)). -/
def ioBufferSize : Nat := 128

/-- fast_poll(io_buffer, io_buffer.size()): the source writes at most
`ioBufferSize` bytes; returns the freshly written bytes. -/
def SourceState.fast_poll (s : SourceState) : List Nat × SourceState :=
  ((s.src.fast s.fastCalls).take ioBufferSize, { s with fastCalls := s.fastCalls + 1 })

/-- slow_poll(io_buffer, io_buffer.size()). -/
def SourceState.slow_poll (s : SourceState) : List Nat × SourceState :=
  ((s.src.slow s.slowCalls).take ioBufferSize, { s with slowCalls := s.slowCalls + 1 })

/-- Full mutable state of one HMAC_RNG instance.  `reseeds` and `steps`
are ghost instrumentation fields, touched nowhere except that
`reseed_with_input` increments `reseeds` once and `hmac_prf` increments
`steps` once; they let theorems count reseed-protocol executions and
PRF stepping-function invocations. -/
structure RNGState where
  extractor : MacState
  prf : MacState
  K : List Nat
  counter : Nat
  entropy : Nat
  source_index : Nat
  sources : List SourceState
  reseeds : Nat
  steps : Nat

/-- The bytes of the label "rng". -/
def label_rng : List Nat := [114, 110, 103]

/-- The bytes of the label "reseed". -/
def label_reseed : List Nat := [114, 101, 115, 101, 101, 100]

/-- The bytes of the label "xts". -/
def label_xts : List Nat := [120, 116, 115]

/-- The bytes of the constructor PRF key "Botan HMAC_RNG PRF". -/
def prfInitialKey : List Nat :=
  [66, 111, 116, 97, 110, 32, 72, 77, 65, 67, 95, 82, 78, 71, 32, 80, 82, 70]

/-- The bytes of the constructor extractor key "Botan HMAC_RNG XTS". -/
def xtsInitialKey : List Nat :=
  [66, 111, 116, 97, 110, 32, 72, 77, 65, 67, 95, 82, 78, 71, 32, 88, 84, 83]

/-- Modelled from the spec: get_byte (from loadstor.h, not part of the
provided source) serialises the 32-bit counter; the spec fixes the order
as least-significant byte first, so the loop for i = 0..3 feeding
get_byte(i, counter) produces these four bytes. -/
def counterBytes (c : Nat) : List Nat :=
  [c % 256, c / 256 % 256, c / 65536 % 256, c / 16777216 % 256]

/-- hmac_prf (the PRF stepping function, lines 19-31): feed the keyed
PRF with K, the label, and the four counter bytes; finalize into K;
increment the counter (u32 arithmetic). -/
def hmac_prf (s : RNGState) (label : List Nat) : RNGState :=
  let p := ((s.prf.update s.K).update label).update (counterBytes s.counter)
  let r := p.final
  { s with prf := r.2, K := r.1,
           counter := (s.counter + 1) % u32Mod,
           steps := s.steps + 1 }

/-- One poll sweep over a source list in registry order, threading the
extractor and the entropy estimate: for each source, poll it, credit the
byte count to the estimate (u32 arithmetic) and feed the bytes into the
extractor. -/
def sweep (poll : SourceState → List Nat × SourceState) :
    List SourceState → MacState → Nat → List SourceState × MacState × Nat
  | [], ex, en => ([], ex, en)
  | s :: rest, ex, en =>
    let r := poll s
    let t := sweep poll rest (ex.update r.1) ((en + r.1.length) % u32Mod)
    (r.2 :: t.1, t.2.1, t.2.2)

/-- Phase 1 of reseed_with_input (lines 84-135): if the registry is
non-empty, fast-poll every source in order, then slow-poll every source
in order, feeding each result into the extractor and crediting one bit
per byte. -/
def pollPhase (s : RNGState) : RNGState :=
  if s.sources.length ≠ 0 then
    let f := sweep SourceState.fast_poll s.sources s.extractor s.entropy
    let g := sweep SourceState.slow_poll f.1 f.2.1 f.2.2
    { s with sources := g.1, extractor := g.2.1, entropy := g.2.2 }
  else s

/-- Phase 2 (lines 140-144): absorb caller input, if non-empty, and
credit its length. -/
def inputPhase (input : List Nat) (s : RNGState) : RNGState :=
  if input.length ≠ 0 then
    { s with extractor := s.extractor.update input,
             entropy := (s.entropy + input.length) % u32Mod }
  else s

/-- Phase 3 (lines 157-161): feedback, stepping with labels "rng" and
"reseed", feeding each resulting K into the extractor. -/
def feedbackPhase (s : RNGState) : RNGState :=
  let s1 := hmac_prf s label_rng
  let s2 := { s1 with extractor := s1.extractor.update s1.K }
  let s3 := hmac_prf s2 label_reseed
  { s3 with extractor := s3.extractor.update s3.K }

/-- Phase 4 (line 165): derive the new PRK by finalizing the extractor
and re-key the PRF with it. -/
def rekeyPrfPhase (s : RNGState) : RNGState :=
  let r := s.extractor.final
  { s with extractor := r.2, prf := s.prf.set_key r.1 }

/-- Phase 5 (lines 168-169): step once with label "xts" and re-key the
extractor with the resulting K. -/
def xtsPhase (s : RNGState) : RNGState :=
  let s1 := hmac_prf s label_xts
  { s1 with extractor := s1.extractor.set_key s1.K }

/-- Phase 6 (lines 172-173): reset state.  Per the spec, the post-reset
K is empty until the first step of the next cycle refills it to full
length (MemoryRegion is not part of the provided source; modelled from
the spec). -/
def resetPhase (s : RNGState) : RNGState :=
  { s with K := [], counter := 0 }

/-- Phase 7 (line 176): cap the entropy estimate at the extractor output
size in bits. -/
def capPhase (s : RNGState) : RNGState :=
  { s with entropy := min s.entropy (8 * s.extractor.prim.outLen) }

/-- reseed_with_input (lines 82-177), written as the straight-line
sequence of the C++ body; the ghost reseed counter is bumped at the
end. -/
def reseed_with_input (s0 : RNGState) (input : List Nat) : RNGState :=
  let s1 := pollPhase s0
  let s2 := inputPhase input s1
  let s3 := feedbackPhase s2
  let s4 := rekeyPrfPhase s3
  let s5 := xtsPhase s4
  let s6 := resetPhase s5
  let s7 := capPhase s6
  { s7 with reseeds := s7.reseeds + 1 }

/-- reseed() (lines 182-185): reseed_with_input with empty input. -/
def reseed (s : RNGState) : RNGState :=
  reseed_with_input s []

/-- add_entropy(input, length) (lines 191-194). -/
def add_entropy (s : RNGState) (input : List Nat) : RNGState :=
  reseed_with_input s input

/-- add_entropy_source (lines 199-202): append, taking ownership. -/
def add_entropy_source (s : RNGState) (src : EntropySource) : RNGState :=
  { s with sources := s.sources ++ [⟨src, 0, 0⟩] }

/-- is_seeded (lines 207-210). -/
def is_seeded (s : RNGState) : Bool :=
  s.entropy ≥ 8 * s.prf.prim.outLen

/-- clear (lines 215-223).  The registered sources are not touched. -/
def RNGState.clearAll (s : RNGState) : RNGState :=
  { s with extractor := s.extractor.clearMac,
           prf := s.prf.clearMac,
           K := [],
           entropy := 0,
           counter := 0,
           source_index := 0 }

/-- The constructor (lines 236-274): no sources, zero estimate, K a
zero-filled buffer of the PRF output length, counter and source cursor
zero, both primitives keyed with fixed public constants. -/
def mkHMAC_RNG (extractor_mac prf_mac : MacPrim) : RNGState :=
  { extractor := MacState.set_key ⟨extractor_mac, [], []⟩ xtsInitialKey,
    prf := MacState.set_key ⟨prf_mac, [], []⟩ prfInitialKey,
    K := List.replicate prf_mac.outLen 0,
    counter := 0,
    entropy := 0,
    source_index := 0,
    sources := [],
    reseeds := 0,
    steps := 0 }

/-- The keystream loop of randomize (lines 57-66): step with label
"rng", copy min(K.size(), length) bytes out, repeat until satisfied.
When the PRF output length is zero the C++ loop makes no progress and
never terminates; that branch is cut off here (it is unreachable under
the MAC interface contract MacPrim.WF). -/
def randomizeLoop (s : RNGState) (len : Nat) : List Nat × RNGState :=
  if h0 : len = 0 then ([], s)
  else
    let s2 := hmac_prf s label_rng
    let copied := min s2.K.length len
    if h : copied = 0 then ([], s2)
    else
      let r := randomizeLoop s2 (len - copied)
      (s2.K.take copied ++ r.1, r.2)
termination_by len
decreasing_by
  exact Nat.sub_lt (Nat.pos_of_ne_zero h0) (Nat.pos_of_ne_zero h)

/-- The incidental fast poll at the end of randomize (lines 69-76): if
the registry is non-empty and counter mod 65536 == 0, poll the source
at source_index, advance the round-robin cursor, and feed the result
into the extractor (no entropy credit).  entropy_sources.at would raise
on an out-of-range index; the cursor is always in range in reachable
states, and the model totalises the lookup with a default. -/
def dummySource : SourceState :=
  ⟨⟨fun _ => [], fun _ => []⟩, 0, 0⟩

def incidentalPoll (s : RNGState) : RNGState :=
  if s.sources.length ≠ 0 ∧ s.counter % 65536 = 0 then
    let r := (s.sources.getD s.source_index dummySource).fast_poll
    { s with sources := s.sources.set s.source_index r.2,
             source_index := (s.source_index + 1) % s.sources.length,
             extractor := s.extractor.update r.1 }
  else s

/-- randomize (lines 38-77).  The first component is some output bytes,
or none when PRNG_Unseeded is thrown; the second is the state of the
object afterwards (on the throw path the object keeps the state the
failed reseed left behind). -/
def randomize (s : RNGState) (len : Nat) : Option (List Nat) × RNGState :=
  if ¬ is_seeded s = true ∨ 1048576 ≤ s.counter then
    let s1 := reseed s
    if ¬ is_seeded s1 = true then (none, s1)
    else
      let r := randomizeLoop s1 len
      (some r.1, incidentalPoll r.2)
  else
    let r := randomizeLoop s len
    (some r.1, incidentalPoll r.2)

/-- A caller-visible operation, for determinism statements. -/
inductive RNGOp where
  | addE (data : List Nat) : RNGOp
  | rand (len : Nat) : RNGOp

/-- Run one operation, returning the visible output. -/
def runOp (s : RNGState) : RNGOp → Option (List Nat) × RNGState
  | RNGOp.addE data => (none, add_entropy s data)
  | RNGOp.rand len => randomize s len

/-- Run a sequence of operations, collecting the visible outputs. -/
def runOps (s : RNGState) : List RNGOp → List (Option (List Nat))
  | [] => []
  | op :: rest =>
    let r := runOp s op
    r.1 :: runOps r.2 rest

/-- Concrete MAC primitive of output length 32, used to instantiate
universally quantified theorems at a computable point. -/
def cm32 : MacPrim := ⟨32, fun _ _ => List.replicate 32 0⟩

/-- Concrete MAC primitive of output length 16. -/
def cm16 : MacPrim := ⟨16, fun _ _ => List.replicate 16 0⟩

/-- A freshly constructed generator over the concrete 32-byte MACs. -/
def rng32 : RNGState := mkHMAC_RNG cm32 cm32

/-- The concrete generator after one add_entropy of 256 bytes. -/
def seeded32 : RNGState := add_entropy rng32 (List.replicate 256 7)

/-- The seeded concrete generator with its counter at the forced-reseed
threshold 2^20. -/
def atLimit32 : RNGState := { seeded32 with counter := 1048576 }

/-- A concrete entropy source. -/
def src1 : EntropySource := ⟨fun _ => [1, 2, 3], fun _ => [9]⟩

/-- The concrete generator with one registered source. -/
def withSrc : RNGState := add_entropy_source rng32 src1

/-- The states reachable through the public operations from a freshly
constructed generator. -/
inductive Reachable : RNGState → Prop where
  | init : ∀ ep pp, Reachable (mkHMAC_RNG ep pp)
  | reseedStep : ∀ s, Reachable s → Reachable (reseed s)
  | addEntropyStep : ∀ s input, Reachable s → Reachable (add_entropy s input)
  | addSourceStep : ∀ s src, Reachable s → Reachable (add_entropy_source s src)
  | clearStep : ∀ s, Reachable s → Reachable s.clearAll
  | randomizeStep : ∀ s len, Reachable s → Reachable (randomize s len).2

theorem cm32_wf : MacPrim.WF cm32 :=
  ⟨by decide, fun _ _ => by simp [cm32]⟩

theorem cm16_wf : MacPrim.WF cm16 :=
  ⟨by decide, fun _ _ => by simp [cm16]⟩

/-! Projection lemmas for the stepping function and the reseed phases. -/

theorem hmac_prf_K (s : RNGState) (label : List Nat) :
    (hmac_prf s label).K =
      s.prf.prim.mac s.prf.key (s.prf.buf ++ s.K ++ label ++ counterBytes s.counter) := by
  simp [hmac_prf, MacState.update, MacState.final, List.append_assoc]

theorem hmac_prf_counter (s : RNGState) (label : List Nat) :
    (hmac_prf s label).counter = (s.counter + 1) % u32Mod := rfl

theorem hmac_prf_steps (s : RNGState) (label : List Nat) :
    (hmac_prf s label).steps = s.steps + 1 := rfl

theorem hmac_prf_reseeds (s : RNGState) (label : List Nat) :
    (hmac_prf s label).reseeds = s.reseeds := rfl

theorem hmac_prf_entropy (s : RNGState) (label : List Nat) :
    (hmac_prf s label).entropy = s.entropy := rfl

theorem hmac_prf_extractor (s : RNGState) (label : List Nat) :
    (hmac_prf s label).extractor = s.extractor := rfl

theorem hmac_prf_sources (s : RNGState) (label : List Nat) :
    (hmac_prf s label).sources = s.sources := rfl

theorem hmac_prf_source_index (s : RNGState) (label : List Nat) :
    (hmac_prf s label).source_index = s.source_index := rfl

theorem hmac_prf_prf_prim (s : RNGState) (label : List Nat) :
    (hmac_prf s label).prf.prim = s.prf.prim := rfl

theorem hmac_prf_K_length (s : RNGState) (label : List Nat)
    (h : MacPrim.WF s.prf.prim) :
    (hmac_prf s label).K.length = s.prf.prim.outLen := by
  rw [hmac_prf_K]; exact h.2 _ _

theorem sweep_prim (poll : SourceState → List Nat × SourceState) :
    ∀ (l : List SourceState) (ex : MacState) (en : Nat),
      (sweep poll l ex en).2.1.prim = ex.prim := by
  intro l
  induction l with
  | nil => intro ex en; rfl
  | cons a t ih => intro ex en; simpa [sweep] using ih _ _

theorem pollPhase_prf (s : RNGState) : (pollPhase s).prf = s.prf := by
  unfold pollPhase; split <;> rfl

theorem pollPhase_K (s : RNGState) : (pollPhase s).K = s.K := by
  unfold pollPhase; split <;> rfl

theorem pollPhase_counter (s : RNGState) : (pollPhase s).counter = s.counter := by
  unfold pollPhase; split <;> rfl

theorem pollPhase_steps (s : RNGState) : (pollPhase s).steps = s.steps := by
  unfold pollPhase; split <;> rfl

theorem pollPhase_reseeds (s : RNGState) : (pollPhase s).reseeds = s.reseeds := by
  unfold pollPhase; split <;> rfl

theorem pollPhase_source_index (s : RNGState) :
    (pollPhase s).source_index = s.source_index := by
  unfold pollPhase; split <;> rfl

theorem pollPhase_extractor_prim (s : RNGState) :
    (pollPhase s).extractor.prim = s.extractor.prim := by
  unfold pollPhase; split
  · simp [sweep_prim]
  · rfl

theorem pollPhase_of_no_sources (s : RNGState) (h : s.sources = []) :
    pollPhase s = s := by
  simp [pollPhase, h]

theorem inputPhase_prf (input : List Nat) (s : RNGState) :
    (inputPhase input s).prf = s.prf := by
  unfold inputPhase; split <;> rfl

theorem inputPhase_K (input : List Nat) (s : RNGState) :
    (inputPhase input s).K = s.K := by
  unfold inputPhase; split <;> rfl

theorem inputPhase_counter (input : List Nat) (s : RNGState) :
    (inputPhase input s).counter = s.counter := by
  unfold inputPhase; split <;> rfl

theorem inputPhase_steps (input : List Nat) (s : RNGState) :
    (inputPhase input s).steps = s.steps := by
  unfold inputPhase; split <;> rfl

theorem inputPhase_reseeds (input : List Nat) (s : RNGState) :
    (inputPhase input s).reseeds = s.reseeds := by
  unfold inputPhase; split <;> rfl

theorem inputPhase_source_index (input : List Nat) (s : RNGState) :
    (inputPhase input s).source_index = s.source_index := by
  unfold inputPhase; split <;> rfl

theorem inputPhase_sources (input : List Nat) (s : RNGState) :
    (inputPhase input s).sources = s.sources := by
  unfold inputPhase; split <;> rfl

theorem inputPhase_extractor_prim (input : List Nat) (s : RNGState) :
    (inputPhase input s).extractor.prim = s.extractor.prim := by
  unfold inputPhase; split <;> rfl

theorem inputPhase_entropy (input : List Nat) (s : RNGState) :
    (inputPhase input s).entropy =
      if input.length ≠ 0 then (s.entropy + input.length) % u32Mod else s.entropy := by
  unfold inputPhase; split <;> simp_all

theorem feedbackPhase_entropy (s : RNGState) :
    (feedbackPhase s).entropy = s.entropy := rfl

theorem feedbackPhase_reseeds (s : RNGState) :
    (feedbackPhase s).reseeds = s.reseeds := rfl

theorem feedbackPhase_sources (s : RNGState) :
    (feedbackPhase s).sources = s.sources := rfl

theorem feedbackPhase_source_index (s : RNGState) :
    (feedbackPhase s).source_index = s.source_index := rfl

theorem feedbackPhase_prf_prim (s : RNGState) :
    (feedbackPhase s).prf.prim = s.prf.prim := rfl

theorem feedbackPhase_extractor_prim (s : RNGState) :
    (feedbackPhase s).extractor.prim = s.extractor.prim := rfl

theorem rekeyPrfPhase_entropy (s : RNGState) :
    (rekeyPrfPhase s).entropy = s.entropy := rfl

theorem rekeyPrfPhase_reseeds (s : RNGState) :
    (rekeyPrfPhase s).reseeds = s.reseeds := rfl

theorem rekeyPrfPhase_counter (s : RNGState) :
    (rekeyPrfPhase s).counter = s.counter := rfl

theorem rekeyPrfPhase_K (s : RNGState) :
    (rekeyPrfPhase s).K = s.K := rfl

theorem rekeyPrfPhase_source_index (s : RNGState) :
    (rekeyPrfPhase s).source_index = s.source_index := rfl

theorem rekeyPrfPhase_prf_prim (s : RNGState) :
    (rekeyPrfPhase s).prf.prim = s.prf.prim := rfl

theorem rekeyPrfPhase_extractor_prim (s : RNGState) :
    (rekeyPrfPhase s).extractor.prim = s.extractor.prim := rfl

theorem xtsPhase_entropy (s : RNGState) :
    (xtsPhase s).entropy = s.entropy := rfl

theorem xtsPhase_reseeds (s : RNGState) :
    (xtsPhase s).reseeds = s.reseeds := rfl

theorem xtsPhase_source_index (s : RNGState) :
    (xtsPhase s).source_index = s.source_index := rfl

theorem xtsPhase_prf_prim (s : RNGState) :
    (xtsPhase s).prf.prim = s.prf.prim := rfl

theorem xtsPhase_extractor_prim (s : RNGState) :
    (xtsPhase s).extractor.prim = s.extractor.prim := rfl

theorem resetPhase_K (s : RNGState) : (resetPhase s).K = [] := rfl

theorem resetPhase_counter (s : RNGState) : (resetPhase s).counter = 0 := rfl

theorem resetPhase_entropy (s : RNGState) : (resetPhase s).entropy = s.entropy := rfl

theorem resetPhase_reseeds (s : RNGState) : (resetPhase s).reseeds = s.reseeds := rfl

theorem resetPhase_source_index (s : RNGState) :
    (resetPhase s).source_index = s.source_index := rfl

theorem resetPhase_extractor (s : RNGState) :
    (resetPhase s).extractor = s.extractor := rfl

theorem resetPhase_prf (s : RNGState) : (resetPhase s).prf = s.prf := rfl

theorem capPhase_entropy (s : RNGState) :
    (capPhase s).entropy = min s.entropy (8 * s.extractor.prim.outLen) := rfl

theorem capPhase_K (s : RNGState) : (capPhase s).K = s.K := rfl

theorem capPhase_counter (s : RNGState) : (capPhase s).counter = s.counter := rfl

theorem capPhase_reseeds (s : RNGState) : (capPhase s).reseeds = s.reseeds := rfl

theorem capPhase_source_index (s : RNGState) :
    (capPhase s).source_index = s.source_index := rfl

theorem capPhase_extractor (s : RNGState) : (capPhase s).extractor = s.extractor := rfl

theorem capPhase_prf (s : RNGState) : (capPhase s).prf = s.prf := rfl

/-! Derived facts about the whole reseed protocol. -/

theorem reseed_with_input_counter (s : RNGState) (input : List Nat) :
    (reseed_with_input s input).counter = 0 := by
  simp [reseed_with_input, capPhase_counter, resetPhase_counter]

theorem reseed_with_input_K (s : RNGState) (input : List Nat) :
    (reseed_with_input s input).K = [] := by
  simp [reseed_with_input, capPhase_K, resetPhase_K]

theorem reseed_with_input_reseeds (s : RNGState) (input : List Nat) :
    (reseed_with_input s input).reseeds = s.reseeds + 1 := by
  simp [reseed_with_input, capPhase_reseeds, resetPhase_reseeds, xtsPhase_reseeds,
    rekeyPrfPhase_reseeds, feedbackPhase_reseeds, inputPhase_reseeds, pollPhase_reseeds]

theorem reseed_with_input_extractor_prim (s : RNGState) (input : List Nat) :
    (reseed_with_input s input).extractor.prim = s.extractor.prim := by
  simp [reseed_with_input, capPhase_extractor, resetPhase_extractor,
    xtsPhase_extractor_prim, rekeyPrfPhase_extractor_prim, feedbackPhase_extractor_prim,
    inputPhase_extractor_prim, pollPhase_extractor_prim]

theorem reseed_with_input_prf_prim (s : RNGState) (input : List Nat) :
    (reseed_with_input s input).prf.prim = s.prf.prim := by
  simp [reseed_with_input, capPhase_prf, resetPhase_prf, xtsPhase_prf_prim,
    rekeyPrfPhase_prf_prim, feedbackPhase_prf_prim, inputPhase_prf, pollPhase_prf]

theorem reseed_with_input_entropy (s : RNGState) (input : List Nat) :
    (reseed_with_input s input).entropy =
      min (inputPhase input (pollPhase s)).entropy (8 * s.extractor.prim.outLen) := by
  simp [reseed_with_input, capPhase_entropy, resetPhase_entropy, resetPhase_extractor,
    xtsPhase_entropy, rekeyPrfPhase_entropy, feedbackPhase_entropy,
    xtsPhase_extractor_prim, rekeyPrfPhase_extractor_prim, feedbackPhase_extractor_prim,
    inputPhase_extractor_prim, pollPhase_extractor_prim]

theorem reseed_with_input_entropy_cap (s : RNGState) (input : List Nat) :
    (reseed_with_input s input).entropy ≤
      8 * (reseed_with_input s input).extractor.prim.outLen := by
  rw [reseed_with_input_entropy, reseed_with_input_extractor_prim]
  exact min_le_right _ _

/-- C2: on every invocation, the stepping function feeds the already-keyed
PRF with, in order, the current contents of K, the label bytes, and the
four bytes of the 32-bit counter least-significant byte first; it then
finalizes the MAC into K (overwriting it) and increments the counter by
exactly 1. -/
theorem hmac_prf_step_spec (s : RNGState) (label : List Nat)
    (hbuf : s.prf.buf = []) (hctr : s.counter + 1 < u32Mod) :
    (hmac_prf s label).K =
      s.prf.prim.mac s.prf.key
        (s.K ++ label ++ [s.counter % 256, s.counter / 256 % 256,
          s.counter / 65536 % 256, s.counter / 16777216 % 256]) ∧
    (hmac_prf s label).counter = s.counter + 1 := by
  constructor
  · rw [hmac_prf_K, hbuf]
    simp [counterBytes]
  · rw [hmac_prf_counter]
    exact Nat.mod_eq_of_lt hctr

theorem hmac_prf_step_spec_witness :
    (hmac_prf (mkHMAC_RNG cm32 cm32) label_rng).K =
      (mkHMAC_RNG cm32 cm32).prf.prim.mac (mkHMAC_RNG cm32 cm32).prf.key
        ((mkHMAC_RNG cm32 cm32).K ++ label_rng ++
          [(mkHMAC_RNG cm32 cm32).counter % 256,
           (mkHMAC_RNG cm32 cm32).counter / 256 % 256,
           (mkHMAC_RNG cm32 cm32).counter / 65536 % 256,
           (mkHMAC_RNG cm32 cm32).counter / 16777216 % 256]) ∧
    (hmac_prf (mkHMAC_RNG cm32 cm32) label_rng).counter =
      (mkHMAC_RNG cm32 cm32).counter + 1 :=
  hmac_prf_step_spec (mkHMAC_RNG cm32 cm32) label_rng rfl (by decide)

/-- C4: reseed_with_input performs its steps in exact order — poll sweep,
caller input, the two feedback steps (labels "rng" and "reseed", each K
fed into the extractor), PRF re-key from the extractor output, the "xts"
step re-keying the extractor, clearing K and zeroing the counter, and
finally the entropy cap at 8 times the extractor output length. -/
theorem reseed_with_input_order (s : RNGState) (input : List Nat) :
    reseed_with_input s input =
      { capPhase (resetPhase (xtsPhase (rekeyPrfPhase (feedbackPhase
          (inputPhase input (pollPhase s)))))) with reseeds := s.reseeds + 1 } ∧
    (reseed_with_input s input).counter = 0 ∧
    (reseed_with_input s input).K = [] ∧
    (reseed_with_input s input).entropy =
      min (inputPhase input (pollPhase s)).entropy (8 * s.extractor.prim.outLen) := by
  refine ⟨?_, reseed_with_input_counter s input, reseed_with_input_K s input,
    reseed_with_input_entropy s input⟩
  have h : (capPhase (resetPhase (xtsPhase (rekeyPrfPhase (feedbackPhase
      (inputPhase input (pollPhase s))))))).reseeds = s.reseeds := by
    simp [capPhase_reseeds, resetPhase_reseeds, xtsPhase_reseeds,
      rekeyPrfPhase_reseeds, feedbackPhase_reseeds, inputPhase_reseeds, pollPhase_reseeds]
  calc reseed_with_input s input
      = { capPhase (resetPhase (xtsPhase (rekeyPrfPhase (feedbackPhase
            (inputPhase input (pollPhase s)))))) with
          reseeds := (capPhase (resetPhase (xtsPhase (rekeyPrfPhase (feedbackPhase
            (inputPhase input (pollPhase s))))))).reseeds + 1 } := rfl
    _ = _ := by rw [h]

/-- C7: add_entropy with empty input is exactly the same state
transformation as reseed. -/
theorem add_entropy_empty_eq_reseed (s : RNGState) :
    add_entropy s [] = reseed s := rfl

/-! Facts about the keystream loop of randomize. -/

theorem randomizeLoop_frame (s : RNGState) (len : Nat) :
    (randomizeLoop s len).2.extractor = s.extractor ∧
    (randomizeLoop s len).2.entropy = s.entropy ∧
    (randomizeLoop s len).2.sources = s.sources ∧
    (randomizeLoop s len).2.source_index = s.source_index ∧
    (randomizeLoop s len).2.reseeds = s.reseeds ∧
    (randomizeLoop s len).2.prf.prim = s.prf.prim := by
  induction s, len using randomizeLoop.induct with
  | case1 s =>
    unfold randomizeLoop
    simp
  | case2 s len h0 s2 copied h =>
    unfold randomizeLoop
    rw [dif_neg h0, dif_pos h]
    exact ⟨rfl, rfl, rfl, rfl, rfl, rfl⟩
  | case3 s len h0 s2 copied h ih =>
    unfold randomizeLoop
    rw [dif_neg h0, dif_neg h]
    exact ih

theorem ceil_step (L len : Nat) (hL : 0 < L) (hlen : 0 < len) :
    (len + L - 1) / L = (len - min L len + L - 1) / L + 1 := by
  have h1 : len + L - 1 = (len - 1) + L := by omega
  rw [h1, Nat.add_div_right _ hL]
  rcases le_or_lt len L with hle | hlt
  · rw [min_eq_right hle]
    have h2 : len - len + L - 1 = L - 1 := by omega
    rw [h2, Nat.div_eq_of_lt (by omega), Nat.div_eq_of_lt (by omega)]
  · rw [min_eq_left (le_of_lt hlt)]
    have h2 : len - L + L - 1 = (len - 1 - L) + L := by omega
    rw [h2, Nat.add_div_right _ hL]
    have h4 : (len - 1) / L = (len - 1 - L) / L + 1 := by
      conv_lhs => rw [show len - 1 = (len - 1 - L) + L by omega]
      rw [Nat.add_div_right _ hL]
    omega

theorem randomizeLoop_spec : ∀ (s : RNGState) (len : Nat), MacPrim.WF s.prf.prim →
    ((randomizeLoop s len).1).length = len ∧
    (randomizeLoop s len).2.steps =
      s.steps + (len + s.prf.prim.outLen - 1) / s.prf.prim.outLen := by
  intro s len
  induction s, len using randomizeLoop.induct with
  | case1 s =>
    intro hwf
    have hpos : 0 < s.prf.prim.outLen := hwf.1
    unfold randomizeLoop
    rw [dif_pos rfl]
    refine ⟨rfl, ?_⟩
    show s.steps = s.steps + (0 + s.prf.prim.outLen - 1) / s.prf.prim.outLen
    rw [Nat.div_eq_of_lt (by omega)]
    omega
  | case2 s len h0 s2 copied h =>
    intro hwf
    exfalso
    have hK : s2.K.length = s.prf.prim.outLen := hmac_prf_K_length s label_rng hwf
    have hpos : 0 < s.prf.prim.outLen := hwf.1
    have hc : copied = min s2.K.length len := rfl
    have hz : min s2.K.length len = 0 := by rw [← hc]; exact h
    rcases Nat.min_eq_zero_iff.1 hz with h1 | h1
    · omega
    · exact h0 h1
  | case3 s len h0 s2 copied h ih =>
    intro hwf
    have hwf2 : MacPrim.WF s2.prf.prim := hwf
    have hK : s2.K.length = s.prf.prim.outLen := hmac_prf_K_length s label_rng hwf
    have hc : copied = min s2.K.length len := rfl
    obtain ⟨ihlen, ihsteps⟩ := ih hwf2
    unfold randomizeLoop
    rw [dif_neg h0, dif_neg h]
    show (s2.K.take copied ++ (randomizeLoop s2 (len - copied)).1).length = len ∧
      (randomizeLoop s2 (len - copied)).2.steps =
        s.steps + (len + s.prf.prim.outLen - 1) / s.prf.prim.outLen
    constructor
    · rw [List.length_append, List.length_take, ihlen]
      have hcK : copied ≤ s2.K.length := by rw [hc]; exact min_le_left _ _
      have hcle : copied ≤ len := by rw [hc]; exact min_le_right _ _
      rw [min_eq_left hcK]
      omega
    · rw [ihsteps]
      have hsteps2 : s2.steps = s.steps + 1 := rfl
      have hprim2 : s2.prf.prim = s.prf.prim := rfl
      rw [hsteps2, hprim2]
      have hcmin : copied = min s.prf.prim.outLen len := by rw [hc, hK]
      rw [hcmin, ceil_step s.prf.prim.outLen len hwf.1 (Nat.pos_of_ne_zero h0)]
      omega

theorem randomizeLoop_zero (s : RNGState) : randomizeLoop s 0 = ([], s) := by
  unfold randomizeLoop
  rw [dif_pos rfl]

/-! Facts about the incidental fast poll. -/

theorem incidentalPoll_entropy (s : RNGState) :
    (incidentalPoll s).entropy = s.entropy := by
  unfold incidentalPoll; split <;> rfl

theorem incidentalPoll_reseeds (s : RNGState) :
    (incidentalPoll s).reseeds = s.reseeds := by
  unfold incidentalPoll; split <;> rfl

theorem incidentalPoll_steps (s : RNGState) :
    (incidentalPoll s).steps = s.steps := by
  unfold incidentalPoll; split <;> rfl

theorem incidentalPoll_counter (s : RNGState) :
    (incidentalPoll s).counter = s.counter := by
  unfold incidentalPoll; split <;> rfl

theorem incidentalPoll_K (s : RNGState) :
    (incidentalPoll s).K = s.K := by
  unfold incidentalPoll; split <;> rfl

theorem incidentalPoll_prf (s : RNGState) :
    (incidentalPoll s).prf = s.prf := by
  unfold incidentalPoll; split <;> rfl

theorem incidentalPoll_extractor_prim (s : RNGState) :
    (incidentalPoll s).extractor.prim = s.extractor.prim := by
  unfold incidentalPoll; split <;> rfl

/-! The three control-flow shapes of randomize. -/

theorem randomize_unseeded_eq (s : RNGState) (len : Nat)
    (hc : is_seeded s = false ∨ 1048576 ≤ s.counter)
    (h2 : is_seeded (reseed s) = false) :
    randomize s len = (none, reseed s) := by
  have hc' : ¬ is_seeded s = true ∨ 1048576 ≤ s.counter := by
    rcases hc with h | h
    · exact Or.inl (by simp [h])
    · exact Or.inr h
  unfold randomize
  rw [if_pos hc']
  show (if ¬ is_seeded (reseed s) = true then ((none : Option (List Nat)), reseed s)
    else (some (randomizeLoop (reseed s) len).1,
      incidentalPoll (randomizeLoop (reseed s) len).2)) = (none, reseed s)
  rw [if_pos (by simp [h2])]

theorem randomize_reseed_eq (s : RNGState) (len : Nat)
    (hc : is_seeded s = false ∨ 1048576 ≤ s.counter)
    (h2 : is_seeded (reseed s) = true) :
    randomize s len =
      (some (randomizeLoop (reseed s) len).1,
       incidentalPoll (randomizeLoop (reseed s) len).2) := by
  have hc' : ¬ is_seeded s = true ∨ 1048576 ≤ s.counter := by
    rcases hc with h | h
    · exact Or.inl (by simp [h])
    · exact Or.inr h
  unfold randomize
  rw [if_pos hc']
  show (if ¬ is_seeded (reseed s) = true then ((none : Option (List Nat)), reseed s)
    else (some (randomizeLoop (reseed s) len).1,
      incidentalPoll (randomizeLoop (reseed s) len).2)) = _
  rw [if_neg (by simp [h2])]

theorem randomize_direct_eq (s : RNGState) (len : Nat)
    (hseed : is_seeded s = true) (hctr : s.counter < 1048576) :
    randomize s len =
      (some (randomizeLoop s len).1, incidentalPoll (randomizeLoop s len).2) := by
  unfold randomize
  rw [if_neg (by simp [hseed]; omega)]

/-- C5: a randomize call invokes the internal reseed protocol exactly
when the generator is not seeded or the step counter has reached 2^20:
the ghost reseed count grows by one exactly under that condition (so at
counter exactly 2^20 a reseed fires even when is_seeded is already
true), and the unseeded error can only arise when the condition held. -/
theorem randomize_triggers_reseed_iff (s : RNGState) (len : Nat) :
    (randomize s len).2.reseeds =
      (if is_seeded s = false ∨ 1048576 ≤ s.counter then s.reseeds + 1 else s.reseeds) ∧
    ((randomize s len).1 = none → (is_seeded s = false ∨ 1048576 ≤ s.counter)) := by
  by_cases hcb : is_seeded s = false ∨ 1048576 ≤ s.counter
  · rw [if_pos hcb]
    by_cases h2 : is_seeded (reseed s) = false
    · rw [randomize_unseeded_eq s len hcb h2]
      exact ⟨reseed_with_input_reseeds s [], fun _ => hcb⟩
    · simp only [Bool.not_eq_false] at h2
      rw [randomize_reseed_eq s len hcb h2]
      refine ⟨?_, fun h => hcb⟩
      show (incidentalPoll (randomizeLoop (reseed s) len).2).reseeds = s.reseeds + 1
      rw [incidentalPoll_reseeds, (randomizeLoop_frame _ _).2.2.2.2.1]
      exact reseed_with_input_reseeds s []
  · rw [if_neg hcb]
    have hseed : is_seeded s = true := by
      rcases not_or.1 hcb with ⟨h1, _⟩
      simpa using h1
    have hctr : s.counter < 1048576 := by
      rcases not_or.1 hcb with ⟨_, h1⟩
      omega
    rw [randomize_direct_eq s len hseed hctr]
    refine ⟨?_, ?_⟩
    · show (incidentalPoll (randomizeLoop s len).2).reseeds = s.reseeds
      rw [incidentalPoll_reseeds]
      exact (randomizeLoop_frame _ _).2.2.2.2.1
    · intro h
      cases h

theorem randomize_triggers_reseed_iff_witness :
    (randomize atLimit32 5).2.reseeds =
      (if is_seeded atLimit32 = false ∨ 1048576 ≤ atLimit32.counter
       then atLimit32.reseeds + 1 else atLimit32.reseeds) ∧
    ((randomize atLimit32 5).1 = none →
      (is_seeded atLimit32 = false ∨ 1048576 ≤ atLimit32.counter)) :=
  randomize_triggers_reseed_iff atLimit32 5

/-- C9: the forced-reseed threshold is checked only at entry: for a
seeded generator whose counter is below 2^20 at entry, randomize of any
length succeeds, performs exactly ceil(len / PRF output length) stepping
invocations (ghost step counter), and performs no reseed at all — even
when the counter crosses 2^20 during the loop. -/
theorem randomize_step_count (s : RNGState) (len : Nat)
    (hwf : MacPrim.WF s.prf.prim)
    (hseed : is_seeded s = true) (hctr : s.counter < 1048576) :
    (∃ out, (randomize s len).1 = some out ∧ out.length = len) ∧
    (randomize s len).2.steps =
      s.steps + (len + s.prf.prim.outLen - 1) / s.prf.prim.outLen ∧
    (randomize s len).2.reseeds = s.reseeds := by
  rw [randomize_direct_eq s len hseed hctr]
  refine ⟨⟨(randomizeLoop s len).1, rfl, (randomizeLoop_spec s len hwf).1⟩, ?_, ?_⟩
  · show (incidentalPoll (randomizeLoop s len).2).steps = _
    rw [incidentalPoll_steps]
    exact (randomizeLoop_spec s len hwf).2
  · show (incidentalPoll (randomizeLoop s len).2).reseeds = s.reseeds
    rw [incidentalPoll_reseeds]
    exact (randomizeLoop_frame _ _).2.2.2.2.1

set_option maxRecDepth 8000 in
theorem randomize_step_count_witness :
    (∃ out, (randomize seeded32 65).1 = some out ∧ out.length = 65) ∧
    (randomize seeded32 65).2.steps =
      seeded32.steps + (65 + seeded32.prf.prim.outLen - 1) / seeded32.prf.prim.outLen ∧
    (randomize seeded32 65).2.reseeds = seeded32.reseeds :=
  randomize_step_count seeded32 65 cm32_wf (by decide) (by decide)

/-- C3 (amended): a zero-length randomize raises the unseeded error
exactly when the entry condition (unseeded, or counter at the 2^20
threshold) triggers a reseed that still leaves the generator unseeded —
so even a zero-length request fails on a never-seeded generator; when no
error is raised the call trivially succeeds with zero output bytes. -/
theorem randomize_zero_trivial (s : RNGState) :
    ((randomize s 0).1 = none ↔
      ((is_seeded s = false ∨ 1048576 ≤ s.counter) ∧ is_seeded (reseed s) = false)) ∧
    (∀ out, (randomize s 0).1 = some out → out = []) := by
  by_cases hcb : is_seeded s = false ∨ 1048576 ≤ s.counter
  · by_cases h2 : is_seeded (reseed s) = false
    · rw [randomize_unseeded_eq s 0 hcb h2]
      exact ⟨by simp [hcb, h2], by simp⟩
    · simp only [Bool.not_eq_false] at h2
      rw [randomize_reseed_eq s 0 hcb h2]
      constructor
      · simp [h2]
      · intro out hout
        have hl : (randomizeLoop (reseed s) 0).1 = [] := by rw [randomizeLoop_zero]
        rw [hl] at hout
        simpa using hout.symm
  · have hseed : is_seeded s = true := by
      rcases not_or.1 hcb with ⟨h1, _⟩
      simpa using h1
    have hctr : s.counter < 1048576 := by
      rcases not_or.1 hcb with ⟨_, h1⟩
      omega
    rw [randomize_direct_eq s 0 hseed hctr]
    constructor
    · simp [hcb]
    · intro out hout
      have hl : (randomizeLoop s 0).1 = [] := by rw [randomizeLoop_zero]
      rw [hl] at hout
      simpa using hout.symm

theorem randomize_zero_trivial_witness :
    ((randomize rng32 0).1 = none ↔
      ((is_seeded rng32 = false ∨ 1048576 ≤ rng32.counter) ∧
        is_seeded (reseed rng32) = false)) ∧
    (∀ out, (randomize rng32 0).1 = some out → out = []) :=
  randomize_zero_trivial rng32

/-- C3 counterexample: on a freshly constructed, never-seeded generator
with no sources, randomize with requested length zero raises the
unseeded error instead of trivially succeeding. -/
theorem randomize_zero_unseeded_fails :
    (randomize (mkHMAC_RNG cm32 cm32) 0).1 = none := by decide

/-- C1 counterexample: with both output lengths 32 and zero sources, a
single add_entropy of 64 bytes credits only 64 (1 bit per byte), below
the 8*32 = 256 threshold, so is_seeded stays false and the subsequent
randomize of 32 bytes raises the unseeded error. -/
theorem add_entropy_64_not_seeded :
    is_seeded (add_entropy (mkHMAC_RNG cm32 cm32) (List.replicate 64 7)) = false ∧
    (randomize (add_entropy (mkHMAC_RNG cm32 cm32) (List.replicate 64 7)) 32).1 = none := by
  constructor <;> decide

/-- C1 (amended): with PRF and extractor output lengths of 32 bytes and
zero registered sources, a single add_entropy with 256 bytes of caller
data (credited 1 bit per byte, reaching the 256-bit threshold) makes
is_seeded true, and a subsequent randomize of 32 bytes succeeds and
returns 32 bytes without the unseeded error. -/
theorem add_entropy_256_seeds (ep pp : MacPrim) (hpp : MacPrim.WF pp)
    (he32 : ep.outLen = 32) (hp32 : pp.outLen = 32)
    (data : List Nat) (hd : data.length = 256) :
    is_seeded (add_entropy (mkHMAC_RNG ep pp) data) = true ∧
    ∃ out, (randomize (add_entropy (mkHMAC_RNG ep pp) data) 32).1 = some out ∧
      out.length = 32 := by
  have hpoll : pollPhase (mkHMAC_RNG ep pp) = mkHMAC_RNG ep pp :=
    pollPhase_of_no_sources _ rfl
  have hent : (add_entropy (mkHMAC_RNG ep pp) data).entropy = 256 := by
    show (reseed_with_input (mkHMAC_RNG ep pp) data).entropy = 256
    rw [reseed_with_input_entropy, hpoll, inputPhase_entropy]
    rw [if_pos (by omega)]
    have h1 : (mkHMAC_RNG ep pp).entropy = 0 := rfl
    have h2 : (mkHMAC_RNG ep pp).extractor.prim = ep := rfl
    rw [h1, h2, he32, hd]
    norm_num [u32Mod]
  have hprim : (add_entropy (mkHMAC_RNG ep pp) data).prf.prim = pp := by
    show (reseed_with_input (mkHMAC_RNG ep pp) data).prf.prim = pp
    rw [reseed_with_input_prf_prim]
    rfl
  have hseed : is_seeded (add_entropy (mkHMAC_RNG ep pp) data) = true := by
    simp [is_seeded, hent, hprim, hp32]
  have hctr : (add_entropy (mkHMAC_RNG ep pp) data).counter = 0 :=
    reseed_with_input_counter _ data
  have hwf1 : MacPrim.WF (add_entropy (mkHMAC_RNG ep pp) data).prf.prim := by
    rw [hprim]; exact hpp
  refine ⟨hseed, ?_⟩
  rw [randomize_direct_eq _ 32 hseed (by omega)]
  exact ⟨(randomizeLoop (add_entropy (mkHMAC_RNG ep pp) data) 32).1, rfl,
    (randomizeLoop_spec _ 32 hwf1).1⟩

set_option maxRecDepth 8000 in
theorem add_entropy_256_seeds_witness :
    is_seeded (add_entropy (mkHMAC_RNG cm32 cm32) (List.replicate 256 7)) = true ∧
    ∃ out, (randomize (add_entropy (mkHMAC_RNG cm32 cm32) (List.replicate 256 7)) 32).1 =
        some out ∧ out.length = 32 :=
  add_entropy_256_seeds cm32 cm32 cm32_wf rfl rfl (List.replicate 256 7) (by simp)

/-- C8: two generators constructed identically (same MAC primitives,
zero sources), given the identical sequence of add_entropy and
randomize calls with identical arguments, produce identical visible
output sequences — the construction is a deterministic function of
accumulated input. -/
theorem identical_construction_identical_outputs (ep pp : MacPrim) (ops : List RNGOp)
    (g1 g2 : RNGState) (h1 : g1 = mkHMAC_RNG ep pp) (h2 : g2 = mkHMAC_RNG ep pp) :
    runOps g1 ops = runOps g2 ops := by
  subst h1; subst h2; rfl

theorem identical_construction_identical_outputs_witness :
    runOps (mkHMAC_RNG cm32 cm32) [RNGOp.addE (List.replicate 256 1), RNGOp.rand 8] =
      runOps (mkHMAC_RNG cm32 cm32) [RNGOp.addE (List.replicate 256 1), RNGOp.rand 8] :=
  identical_construction_identical_outputs cm32 cm32
    [RNGOp.addE (List.replicate 256 1), RNGOp.rand 8] _ _ rfl rfl

/-- C6: when the registry is non-empty and counter mod 65536 = 0, the
incidental poll at the end of randomize performs exactly one round-robin
fast poll — polling the source at source_index, advancing the cursor
modulo the source count, feeding the result into the extractor — and
leaves the entropy estimate unchanged; and every successful randomize
call ends by applying exactly this incidental-poll step. -/
theorem randomize_incidental_poll_spec :
    (∀ s : RNGState, s.sources.length ≠ 0 → s.counter % 65536 = 0 →
      incidentalPoll s =
        { s with
          sources := s.sources.set s.source_index
            ((s.sources.getD s.source_index dummySource).fast_poll).2,
          source_index := (s.source_index + 1) % s.sources.length,
          extractor := s.extractor.update
            ((s.sources.getD s.source_index dummySource).fast_poll).1 } ∧
      (incidentalPoll s).entropy = s.entropy) ∧
    (∀ (s : RNGState) (len : Nat) (out : List Nat),
      (randomize s len).1 = some out →
      ∃ t : RNGState, (randomize s len).2 = incidentalPoll t) := by
  constructor
  · intro s h1 h2
    refine ⟨?_, incidentalPoll_entropy s⟩
    unfold incidentalPoll
    rw [if_pos ⟨h1, h2⟩]
  · intro s len out h
    by_cases hcb : is_seeded s = false ∨ 1048576 ≤ s.counter
    · by_cases h2 : is_seeded (reseed s) = false
      · rw [randomize_unseeded_eq s len hcb h2] at h
        cases h
      · simp only [Bool.not_eq_false] at h2
        rw [randomize_reseed_eq s len hcb h2]
        exact ⟨_, rfl⟩
    · have hseed : is_seeded s = true := by
        rcases not_or.1 hcb with ⟨h1, _⟩
        simpa using h1
      have hctr : s.counter < 1048576 := by
        rcases not_or.1 hcb with ⟨_, h1⟩
        omega
      rw [randomize_direct_eq s len hseed hctr]
      exact ⟨_, rfl⟩

theorem randomize_incidental_poll_spec_witness :
    incidentalPoll withSrc =
      { withSrc with
        sources := withSrc.sources.set withSrc.source_index
          ((withSrc.sources.getD withSrc.source_index dummySource).fast_poll).2,
        source_index := (withSrc.source_index + 1) % withSrc.sources.length,
        extractor := withSrc.extractor.update
          ((withSrc.sources.getD withSrc.source_index dummySource).fast_poll).1 } ∧
    (incidentalPoll withSrc).entropy = withSrc.entropy :=
  randomize_incidental_poll_spec.1 withSrc (by decide) (by decide)

theorem reachable_entropy_cap : ∀ s : RNGState, Reachable s →
    s.entropy ≤ 8 * s.extractor.prim.outLen := by
  intro s h
  induction h with
  | init ep pp => exact Nat.zero_le _
  | reseedStep s hs ih => exact reseed_with_input_entropy_cap s []
  | addEntropyStep s input hs ih => exact reseed_with_input_entropy_cap s input
  | addSourceStep s src hs ih => exact ih
  | clearStep s hs ih => exact Nat.zero_le _
  | randomizeStep s len hs ih =>
    by_cases hcb : is_seeded s = false ∨ 1048576 ≤ s.counter
    · by_cases h2 : is_seeded (reseed s) = false
      · rw [randomize_unseeded_eq s len hcb h2]
        exact reseed_with_input_entropy_cap s []
      · simp only [Bool.not_eq_false] at h2
        rw [randomize_reseed_eq s len hcb h2]
        show (incidentalPoll (randomizeLoop (reseed s) len).2).entropy ≤
          8 * (incidentalPoll (randomizeLoop (reseed s) len).2).extractor.prim.outLen
        rw [incidentalPoll_entropy, incidentalPoll_extractor_prim,
          (randomizeLoop_frame _ _).2.1, (randomizeLoop_frame _ _).1]
        exact reseed_with_input_entropy_cap s []
    · have hseed : is_seeded s = true := by
        rcases not_or.1 hcb with ⟨h1, _⟩
        simpa using h1
      have hctr : s.counter < 1048576 := by
        rcases not_or.1 hcb with ⟨_, h1⟩
        omega
      rw [randomize_direct_eq s len hseed hctr]
      show (incidentalPoll (randomizeLoop s len).2).entropy ≤
        8 * (incidentalPoll (randomizeLoop s len).2).extractor.prim.outLen
      rw [incidentalPoll_entropy, incidentalPoll_extractor_prim,
        (randomizeLoop_frame _ _).2.1, (randomizeLoop_frame _ _).1]
      exact ih

/-- C10: in every state reachable through the public operations, the
entropy estimate is at most 8 times the extractor output length in
bytes; consequently, when the extractor output length is smaller than
the PRF output length, is_seeded can never be true. -/
theorem reachable_entropy_cap_and_seeding (s : RNGState) (h : Reachable s) :
    s.entropy ≤ 8 * s.extractor.prim.outLen ∧
    (s.extractor.prim.outLen < s.prf.prim.outLen → is_seeded s = false) := by
  refine ⟨reachable_entropy_cap s h, fun hlt => ?_⟩
  have hcap := reachable_entropy_cap s h
  have hne : ¬ (s.entropy ≥ 8 * s.prf.prim.outLen) := by omega
  unfold is_seeded
  exact decide_eq_false hne

theorem reachable_entropy_cap_and_seeding_witness :
    (mkHMAC_RNG cm16 cm32).entropy ≤ 8 * (mkHMAC_RNG cm16 cm32).extractor.prim.outLen ∧
    ((mkHMAC_RNG cm16 cm32).extractor.prim.outLen < (mkHMAC_RNG cm16 cm32).prf.prim.outLen →
      is_seeded (mkHMAC_RNG cm16 cm32) = false) :=
  reachable_entropy_cap_and_seeding _ (Reachable.init cm16 cm32)

end Botan
